import Mathlib

/-!
Shallow embedding of the highlight detection and scoring pipeline of
`app/services/ai/analysis.py` (class `AnalysisService`).

Python strings are modelled as `List Char`, Python floats as `ℚ`.
Python `needle in hay` (substring test) is `isSubOf`, `str.startswith`
is `List.isPrefixOf`, `str.lower()` is `pyLower`, `re.search(r"\d+", t)`
is `hasDigit`, `round(x, n)` is `pyRound n` (round-half-to-even, as in
Python 3), `int(x)` is `pyInt` (truncation toward zero) and
`range(0, stop, step)` is `pyRange stop step`.  A Python dict that is
present or absent / empty is modelled with `Option`.
-/

/-- Python `str.lower()` restricted to the ASCII texts the service handles. -/
def pyLower (s : List Char) : List Char := s.map Char.toLower

/-- Python substring test `needle in hay`. -/
def isSubOf (needle : List Char) : List Char → Bool
  | [] => needle.isEmpty
  | c :: t => needle.isPrefixOf (c :: t) || isSubOf needle t

/-- Python `re.search(r"\d+", text) is not None`: the text has some digit. -/
def hasDigit (s : List Char) : Bool := s.any Char.isDigit

/-- Python `int(q)` on a float: truncation toward zero. -/
def pyInt (q : ℚ) : ℤ := if 0 ≤ q then ⌊q⌋ else -⌊-q⌋

/-- Python `range(0, stop, step)` (the only shape the service uses). -/
def pyRange (stop : ℤ) (step : ℕ) : List ℕ :=
  if stop ≤ 0 ∨ step = 0 then []
  else (List.range ((stop.toNat + step - 1) / step)).map (· * step)

/-- Round a rational to the nearest integer, ties to even (Python `round`). -/
def rhe (q : ℚ) : ℤ :=
  let f := ⌊q⌋
  let frac := q - f
  if frac < 1/2 then f
  else if 1/2 < frac then f + 1
  else if f % 2 = 0 then f else f + 1

/-- Python `round(x, 1)`. -/
def pyRound1 (q : ℚ) : ℚ := (rhe (q * 10) : ℚ) / 10

/-- Python `round(x, 3)`. -/
def pyRound3 (q : ℚ) : ℚ := (rhe (q * 1000) : ℚ) / 1000

/-- Python whitespace stripped by `str.strip()`. -/
def pySpace (c : Char) : Bool :=
  c = ' ' || c = '\t' || c = '\n' || c = '\r' || c = '\x0b' || c = '\x0c'

/-- Python `str.strip()`. -/
def pyStrip (s : List Char) : List Char :=
  ((s.dropWhile pySpace).reverse.dropWhile pySpace).reverse

/-- Python `text.split(".")`: always returns at least one (possibly empty) part. -/
def splitOnDot (l : List Char) : List (List Char) :=
  match l with
  | [] => [[]]
  | c :: cs =>
      match splitOnDot cs with
      | [] => [[]]
      | w :: ws => if c = '.' then [] :: w :: ws else (c :: w) :: ws

/-- Python `" ".join(parts)`. -/
def joinSpace (parts : List (List Char)) : List Char := List.intercalate [' '] parts

/-- Python word character for `\b` boundaries: `[A-Za-z0-9_]` on ASCII text. -/
def wordChar (c : Char) : Bool := c.isAlphanum || c = '_'

/-- Split a text into chunks at the characters where `p` is false
(possibly-empty chunks, like repeated splitting). -/
def chunksBy (p : Char → Bool) : List Char → List (List Char)
  | [] => [[]]
  | c :: cs =>
      match chunksBy p cs with
      | [] => [[]]
      | w :: ws => if p c then (c :: w) :: ws else [] :: w :: ws

/-- Maximal runs of word characters of a text, in order. -/
def wordRuns (l : List Char) : List (List Char) :=
  (chunksBy wordChar l).filter (fun w => !w.isEmpty)

/-- ASCII letter, `[A-Za-z]`. -/
def asciiLetter (c : Char) : Bool := ('A' ≤ c && c ≤ 'Z') || ('a' ≤ c && c ≤ 'z')

/-- Python `re.findall(r"\b[A-Za-z]{4,}\b", t)`: the maximal word-character
runs that consist only of letters and have length at least 4. -/
def letterWords4 (t : List Char) : List (List Char) :=
  (wordRuns t).filter (fun w => w.all asciiLetter && decide (4 ≤ w.length))

/-- Python `re.findall(r"\b[A-Z]{3,}\b", t)`: the maximal word-character
runs that consist only of capital letters and have length at least 3. -/
def capsWords3 (t : List Char) : List (List Char) :=
  (wordRuns t).filter
    (fun w => w.all (fun c => 'A' ≤ c && c ≤ 'Z') && decide (3 ≤ w.length))

/-- First-occurrence deduplication, as by insertion into a Python dict
(`dict.fromkeys`, or incremental update of `word_freq`). -/
def dedupFirst (l : List (List Char)) : List (List Char) :=
  l.foldl (fun acc w => if acc.contains w then acc else acc ++ [w]) []

/-- Stable insertion of `x` into a list sorted in descending key order:
`x` goes in front of the first element that does not strictly beat it. -/
def insertDesc {α : Type} (gt : α → α → Bool) (x : α) : List α → List α
  | [] => [x]
  | y :: ys => if gt y x then y :: insertDesc gt x ys else x :: y :: ys

/-- Stable descending sort (the semantics of Python `list.sort(key=…,
reverse=True)` / `sorted(…, key=…, reverse=True)`): descending in the key,
elements with equal keys keep their original relative order. -/
def sortDesc {α : Type} (gt : α → α → Bool) : List α → List α
  | [] => []
  | x :: xs => insertDesc gt x (sortDesc gt xs)

/-- Transcript segment as consumed from the transcription dict:
`{"start": …, "end": …, "text": …}`. -/
structure Segment where
  start : ℚ
  «end» : ℚ
  text : List Char
deriving DecidableEq

/-- Emotion mapping `{joy, anger, sadness, fear, surprise, neutral}`
built by `_detect_emotions` (insertion order as in the source). -/
structure Emotions where
  joy : ℚ
  anger : ℚ
  sadness : ℚ
  fear : ℚ
  surprise : ℚ
  neutral : ℚ
deriving DecidableEq

/-- Python `sum(emotions.values())`, in dict insertion order. -/
def emotionsSum (e : Emotions) : ℚ :=
  e.joy + e.anger + e.sadness + e.fear + e.surprise + e.neutral

/-- Componentwise addition used when aggregating emotions over segments. -/
def addEmotions (a b : Emotions) : Emotions :=
  ⟨a.joy + b.joy, a.anger + b.anger, a.sadness + b.sadness,
   a.fear + b.fear, a.surprise + b.surprise, a.neutral + b.neutral⟩

/-- Segment merged with its analysis dict, `{**segment, **analysis}`. -/
structure AnalyzedSegment where
  start : ℚ
  «end» : ℚ
  text : List Char
  hook_score : ℚ
  engagement_score : ℚ
  viral_score : ℚ
  emotions : Emotions
  topic_shift : Bool
deriving DecidableEq

/-- Highlight window dict produced by `_detect_highlights`. -/
structure Highlight where
  start : ℕ
  «end» : ℕ
  title : List Char
  description : List Char
  viral_score : ℚ
  hook_score : ℚ
  engagement_score : ℚ
  keywords : List (List Char)
  transcript : List Char
deriving DecidableEq

/-- Sentiment summary dict returned by `_analyze_sentiment`.  The empty-input
branch returns only `overall` and `score`; the main branch returns `overall`,
`distribution`, `positive` and `negative`.  Absent keys are `none`. -/
structure Sentiment where
  overall : List Char
  score : Option ℚ
  distribution : Option Emotions
  positive : Option ℚ
  negative : Option ℚ
deriving DecidableEq

/-- Result dict of `analyze_video`.  In the empty-segments early return the
`sentiment` value is the empty dict (modelled `none`) and the
`segment_analysis` key is absent (modelled `none`). -/
structure AnalysisResult where
  highlights : List Highlight
  topics : List (List Char)
  keywords : List (List Char)
  sentiment : Option Sentiment
  segment_analysis : Option (List AnalyzedSegment)
deriving DecidableEq

/-- Bold statement vocabulary of `_calculate_hook_score`. -/
def bold_indicators : List (List Char) :=
  ["fact".toList, "truth".toList, "secret".toList, "never".toList,
   "always".toList, "everyone".toList, "nobody".toList]

/-- Story hook starters of `_calculate_hook_score`. -/
def story_starters : List (List Char) :=
  ["when i".toList, "i remember".toList, "one day".toList,
   "last year".toList, "recently".toList]

/-- Emotional vocabulary of `_calculate_engagement_score`. -/
def emotional_words : List (List Char) :=
  ["amazing".toList, "incredible".toList, "shocking".toList,
   "surprising".toList, "unbelievable".toList,
   "love".toList, "hate".toList, "angry".toList, "happy".toList,
   "sad".toList, "excited".toList, "worried".toList,
   "perfect".toList, "terrible".toList, "awesome".toList,
   "awful".toList, "fantastic".toList]

/-- Call-to-action vocabulary of `_calculate_engagement_score`. -/
def cta_words : List (List Char) :=
  ["subscribe".toList, "follow".toList, "like".toList, "comment".toList,
   "share".toList, "check out".toList]

/-- Controversial-topic vocabulary of `_calculate_engagement_score`. -/
def controversial_words : List (List Char) :=
  ["controversial".toList, "debate".toList, "argue".toList,
   "wrong".toList, "right".toList, "truth".toList]

/-- Trending-topic vocabulary of `_calculate_viral_score`. -/
def trending_topics : List (List Char) :=
  ["ai".toList, "crypto".toList, "bitcoin".toList, "money".toList,
   "success".toList, "motivation".toList]

/-- Joy vocabulary of `_detect_emotions`. -/
def joy_words : List (List Char) :=
  ["happy".toList, "joy".toList, "excited".toList, "amazing".toList,
   "great".toList, "awesome".toList, "love".toList, "perfect".toList]

/-- Anger vocabulary of `_detect_emotions`. -/
def anger_words : List (List Char) :=
  ["angry".toList, "hate".toList, "terrible".toList, "awful".toList,
   "worst".toList, "annoying".toList]

/-- Surprise vocabulary of `_detect_emotions`. -/
def surprise_words : List (List Char) :=
  ["wow".toList, "unbelievable".toList, "shocking".toList,
   "surprising".toList, "incredible".toList]

/-- Topic-shift vocabulary of `_detect_topic_shift`. -/
def shift_indicators : List (List Char) :=
  ["but".toList, "however".toList, "on the other hand".toList,
   "speaking of".toList, "moving on".toList, "let\x27s talk about".toList,
   "another thing".toList]

/-- Stop words filtered out by `_extract_topics`. -/
def stop_words : List (List Char) :=
  ["this".toList, "that".toList, "with".toList, "from".toList,
   "they".toList, "have".toList, "were".toList, "been".toList,
   "their".toList, "would".toList, "there".toList, "could".toList,
   "should".toList]

/-- `_calculate_hook_score(text, start_time)`: base 50, early-start bonus,
question bonus, bold-statement bonus (first match only), digit bonus,
story-starter bonus (first match only), clamped to `[0, 100]`. -/
def calculate_hook_score (text : List Char) (start_time : ℚ) : ℚ :=
  let early : ℚ := if start_time < 30 then 15 else if start_time < 60 then 10 else 0
  let question : ℚ := if isSubOf ['?'] text then 10 else 0
  let bold : ℚ := if bold_indicators.any (fun w => isSubOf w (pyLower text)) then 5 else 0
  let nums : ℚ := if hasDigit text then 5 else 0
  let story : ℚ := if story_starters.any (fun w => w.isPrefixOf (pyLower text)) then 10 else 0
  min 100 (max 0 (50 + early + question + bold + nums + story))

/-- `_calculate_engagement_score(text)`: base 50, +3 per matched emotional
word, +5 per matched call-to-action word, +5 per matched controversial word,
clamped to `[0, 100]`. -/
def calculate_engagement_score (text : List Char) : ℚ :=
  let emo := emotional_words.countP (fun w => isSubOf w (pyLower text))
  let cta := cta_words.countP (fun w => isSubOf w (pyLower text))
  let contro := controversial_words.countP (fun w => isSubOf w (pyLower text))
  min 100 (max 0 (50 + 3 * (emo : ℚ) + 5 * (cta : ℚ) + 5 * (contro : ℚ)))

/-- `_calculate_viral_score(text, hook_score, engagement_score)`:
`0.4·hook + 0.4·engagement + 20`, +5 per matched trending topic,
clamped to `[0, 100]`. -/
def calculate_viral_score (text : List Char) (hook_score engagement_score : ℚ) : ℚ :=
  let trend := trending_topics.countP (fun w => isSubOf w (pyLower text))
  min 100 (max 0 (hook_score * 0.4 + engagement_score * 0.4 + 20 + 5 * (trend : ℚ)))

/-- Number of emotion-vocabulary words (joy, anger, surprise) matched in a
text; each match adds 0.2 to its emotion and subtracts 0.1 from neutral. -/
def emotionSignals (text : List Char) : ℕ :=
  joy_words.countP (fun w => isSubOf w (pyLower text)) +
  anger_words.countP (fun w => isSubOf w (pyLower text)) +
  surprise_words.countP (fun w => isSubOf w (pyLower text))

/-- `_detect_emotions(text)`: start from neutral 1, add 0.2 per matched word
of each vocabulary and subtract 0.1 from neutral, then divide everything by
the total when the total is positive. -/
def detect_emotions (text : List Char) : Emotions :=
  let jc := joy_words.countP (fun w => isSubOf w (pyLower text))
  let ac := anger_words.countP (fun w => isSubOf w (pyLower text))
  let sc := surprise_words.countP (fun w => isSubOf w (pyLower text))
  let pre : Emotions :=
    ⟨0.2 * (jc : ℚ), 0.2 * (ac : ℚ), 0, 0, 0.2 * (sc : ℚ),
     1 - 0.1 * ((jc : ℚ) + (ac : ℚ) + (sc : ℚ))⟩
  let total := emotionsSum pre
  if 0 < total then
    ⟨pre.joy / total, pre.anger / total, pre.sadness / total,
     pre.fear / total, pre.surprise / total, pre.neutral / total⟩
  else pre

/-- `_detect_topic_shift(text, context)`: any shift indicator occurs in the
lowercased text (the context argument is unused in the source). -/
def detect_topic_shift (text : List Char) : Bool :=
  shift_indicators.any (fun w => isSubOf w (pyLower text))

/-- `_analyze_segment(segment, full_text)`: the segment dict merged with its
computed scores, emotions and topic-shift flag. -/
def analyze_segment (segment : Segment) (_full_text : List Char) : AnalyzedSegment :=
  let hook := calculate_hook_score segment.text segment.start
  let engagement := calculate_engagement_score segment.text
  let viral := calculate_viral_score segment.text hook engagement
  { start := segment.start, «end» := segment.«end», text := segment.text,
    hook_score := hook, engagement_score := engagement, viral_score := viral,
    emotions := detect_emotions segment.text,
    topic_shift := detect_topic_shift segment.text }

/-- `_extract_topics(text)`: words of at least 4 letters from the lowercased
text, stop words removed, ranked by frequency (stable descending sort over
first-occurrence order), top 5. -/
def extract_topics (text : List Char) : List (List Char) :=
  let words := letterWords4 (pyLower text)
  let kept := words.filter (fun w => !stop_words.contains w)
  let freq := (dedupFirst kept).map (fun w => (w, kept.count w))
  let ranked := sortDesc (fun a b => decide (b.2 < a.2)) freq
  (ranked.take 5).map (·.1)

/-- `_extract_keywords(text, segments)`: topics of the text followed by
all-caps emphasis words of each segment text, deduplicated keeping first
occurrences, top 10. -/
def extract_keywords (text : List Char) (segment_texts : List (List Char)) :
    List (List Char) :=
  let topics := extract_topics text
  let emphasis := (segment_texts.map capsWords3).flatten
  (dedupFirst (topics ++ emphasis)).take 10

/-- `_generate_title(text)`: first "."-separated part, stripped, truncated to
57 characters plus "..." when longer than 60; the `"Untitled Clip"` branch is
only reachable when the split produces no parts at all. -/
def generate_title (text : List Char) : List Char :=
  match splitOnDot text with
  | s :: _ =>
      let title := pyStrip s
      if 60 < title.length then title.take 57 ++ "...".toList else title
  | [] => "Untitled Clip".toList

/-- Window starts of `_detect_highlights`:
`range(0, int(duration) - window_size + 1, stride)` with a 30s window and a
5s stride. -/
def windowStarts (duration : ℚ) : List ℕ := pyRange (pyInt duration - 30 + 1) 5

/-- Segments fully contained in the window `[start, start + 30]`:
`s["start"] >= start and s["end"] <= end`. -/
def windowSegs (start : ℕ) (segments : List AnalyzedSegment) :
    List AnalyzedSegment :=
  segments.filter
    (fun s => decide ((start : ℚ) ≤ s.start) && decide (s.«end» ≤ (start : ℚ) + 30))

/-- Highlight dict built for one non-empty window. -/
def mkHighlight (start : ℕ) (ws : List AnalyzedSegment) : Highlight :=
  let avg_viral := (ws.map (·.viral_score)).sum / (ws.length : ℚ)
  let avg_hook := (ws.map (·.hook_score)).sum / (ws.length : ℚ)
  let avg_engagement := (ws.map (·.engagement_score)).sum / (ws.length : ℚ)
  let transcript := joinSpace (ws.map (·.text))
  { start := start, «end» := start + 30,
    title := generate_title transcript,
    description :=
      if 200 < transcript.length then transcript.take 200 ++ "...".toList
      else transcript,
    viral_score := pyRound1 avg_viral,
    hook_score := pyRound1 avg_hook,
    engagement_score := pyRound1 avg_engagement,
    keywords := (extract_keywords transcript (ws.map (·.text))).take 5,
    transcript := transcript }

/-- Comparison used to sort highlights: `key=lambda x: x["viral_score"],
reverse=True`; `gtViral y x` holds when `y` strictly beats `x`. -/
def gtViral (y x : Highlight) : Bool := decide (x.viral_score < y.viral_score)

/-- `_detect_highlights(segments, duration)`: build one highlight per
non-empty window, sort by viral score descending (stable) and keep 10. -/
def detect_highlights (segments : List AnalyzedSegment) (duration : ℚ) :
    List Highlight :=
  let windows := (windowStarts duration).filterMap
    (fun start =>
      let ws := windowSegs start segments
      if ws.isEmpty then none else some (mkHighlight start ws))
  (sortDesc gtViral windows).take 10

/-- Dominant emotion: Python `max(all_emotions, key=all_emotions.get)`,
the first key (in dict order) holding the maximal value. -/
def dominantEmotion (e : Emotions) : List Char :=
  let pairs : List (List Char × ℚ) :=
    [("joy".toList, e.joy), ("anger".toList, e.anger),
     ("sadness".toList, e.sadness), ("fear".toList, e.fear),
     ("surprise".toList, e.surprise), ("neutral".toList, e.neutral)]
  (pairs.foldl (fun best p => if best.2 < p.2 then p else best)
    ("joy".toList, e.joy)).1

/-- `_analyze_sentiment(segments)`: aggregate the segment emotions, normalize
by the (positive) total with 3-decimal rounding, report the dominant label
and the positive/negative aggregates. -/
def analyze_sentiment (segments : List AnalyzedSegment) : Sentiment :=
  if segments.isEmpty then
    { overall := "neutral".toList, score := some 0,
      distribution := none, positive := none, negative := none }
  else
    let agg := segments.foldl (fun acc s => addEmotions acc s.emotions)
      ⟨0, 0, 0, 0, 0, 0⟩
    let total := emotionsSum agg
    let dist : Emotions :=
      if 0 < total then
        ⟨pyRound3 (agg.joy / total), pyRound3 (agg.anger / total),
         pyRound3 (agg.sadness / total), pyRound3 (agg.fear / total),
         pyRound3 (agg.surprise / total), pyRound3 (agg.neutral / total)⟩
      else agg
    { overall := dominantEmotion dist,
      score := none,
      distribution := some dist,
      positive := some (dist.joy + dist.surprise * 0.5),
      negative := some (dist.anger + dist.sadness + dist.fear) }

/-- Analyzed segments of `analyze_video`, in input order. -/
def analyzedSegments (segments : List Segment) (full_text : List Char) :
    List AnalyzedSegment :=
  segments.map (fun s => analyze_segment s full_text)

/-- `analyze_video(transcription, duration)` on
`segments = transcription["segments"]` and `full_text = transcription["text"]`.
An empty segment list short-circuits to
`{"highlights": [], "topics": [], "keywords": [], "sentiment": {}}`. -/
def analyze_video (segments : List Segment) (full_text : List Char)
    (duration : ℚ) : AnalysisResult :=
  if segments.isEmpty then
    { highlights := [], topics := [], keywords := [],
      sentiment := none, segment_analysis := none }
  else
    let analyzed := analyzedSegments segments full_text
    { highlights := detect_highlights analyzed duration,
      topics := extract_topics full_text,
      keywords := extract_keywords full_text (segments.map (·.text)),
      sentiment := some (analyze_sentiment analyzed),
      segment_analysis := some analyzed }

/-- Modelled from the spec, amended: title formula actually implemented —
first "."-separated part of the transcript, stripped, truncated to 57
characters plus "..." when longer than 60 characters; an empty transcript
yields the empty title (the `"Untitled Clip"` fallback is unreachable). -/
def titleSpec (text : List Char) : List Char :=
  let s := pyStrip ((splitOnDot text).headD [])
  if 60 < s.length then s.take 57 ++ "...".toList else s

/-- Text used to refute the emotion non-negativity claim: it fires six joy
words and six anger words. -/
def emoText : List Char :=
  "angry hate terrible awful worst annoying happy joy excited amazing great awesome".toList

/-- Splitting on "." always yields at least one part, as in Python. -/
lemma splitOnDot_ne_nil (l : List Char) : splitOnDot l ≠ [] := by
  cases l with
  | nil => simp [splitOnDot]
  | cons c cs =>
      unfold splitOnDot
      cases h : splitOnDot cs with
      | nil => simp
      | cons w ws =>
          dsimp only
          split <;> simp

/-- Window starts for duration 100 are 0, 5, …, 70. -/
lemma windowStarts_100 :
    windowStarts 100 = [0, 5, 10, 15, 20, 25, 30, 35, 40, 45, 50, 55, 60, 65, 70] := by
  have h : pyInt 100 = 100 := by
    unfold pyInt
    rw [if_pos (by norm_num)]
    norm_num [Int.floor_eq_iff]
  rw [windowStarts, h]
  decide

/-- C1 (counterexample): on the empty segment list the returned dict has the
empty dict as `sentiment` — there is no `overall` key at all, so
`sentiment.overall == "neutral"` fails — and no `segment_analysis` key. -/
theorem c1_counterexample :
    (analyze_video [] [] 0).sentiment = none ∧
    (analyze_video [] [] 0).segment_analysis = none ∧
    ¬ ∃ st, (analyze_video [] [] 0).sentiment = some st ∧
      st.overall = "neutral".toList := by
  refine ⟨rfl, rfl, ?_⟩
  rintro ⟨st, hst, -⟩
  rw [show (analyze_video [] [] 0).sentiment = none from rfl] at hst
  exact Option.noConfusion hst

/-- C1 (amended): for an empty segment list `analyze_video` returns
`{"highlights": [], "topics": [], "keywords": [], "sentiment": {}}`:
highlights, topics and keywords are empty, `sentiment` is the empty mapping
(no `overall` key) and the `segment_analysis` key is absent. -/
theorem c1_empty_input (full_text : List Char) (duration : ℚ) :
    analyze_video [] full_text duration =
      { highlights := [], topics := [], keywords := [],
        sentiment := none, segment_analysis := none } := rfl

/-- C2 (counterexample): for duration 100 the window loop generates 15
candidate windows (starts 0, 5, …, 70), not at most 14 with last start 65. -/
theorem c2_counterexample :
    (windowStarts 100).length = 15 ∧ ¬ (windowStarts 100).length ≤ 14 ∧
    70 ∈ windowStarts 100 := by
  rw [windowStarts_100]
  refine ⟨rfl, by norm_num, by decide⟩

/-- C2 (amended): for duration 100 the window-selection loop generates
candidate windows exactly at starts 0, 5, 10, …, 70 — the last start is
`int(100) - 30 = 70` — so 15 windows exist before empty-window filtering. -/
theorem c2_window_starts :
    windowStarts 100 = [0, 5, 10, 15, 20, 25, 30, 35, 40, 45, 50, 55, 60, 65, 70] ∧
    (windowStarts 100).length = 15 := by
  refine ⟨windowStarts_100, ?_⟩
  rw [windowStarts_100]
  rfl

/-- C7: the lone segment `{start: 5, end: 10, text: "What if I told you a
secret?"}` gets hook score exactly 80: base 50, +15 early start, +10 question
mark, +5 bold word "secret", nothing else firing, clamp a no-op. -/
theorem c7_hook_score_scenario :
    calculate_hook_score "What if I told you a secret?".toList 5 = 80 := by
  simp +decide only [calculate_hook_score]
  norm_num [min_def, max_def]

/-- C8 (counterexample): a transcript with no content yields the empty title,
not `"Untitled Clip"` — the fallback branch is dead code because Python
`split` never returns an empty list. -/
theorem c8_counterexample :
    generate_title [] = [] ∧ generate_title [] ≠ "Untitled Clip".toList := by
  refine ⟨rfl, by decide⟩

/-- C8 (amended): the generated title is always the first "."-separated part
of the transcript, stripped, truncated to its first 57 characters plus "..."
when it exceeds 60 characters; a transcript with no content yields the empty
title (the `"Untitled Clip"` branch never fires). -/
theorem c8_title_formula (text : List Char) :
    generate_title text = titleSpec text := by
  unfold generate_title titleSpec
  cases h : splitOnDot text with
  | nil => exact absurd h (splitOnDot_ne_nil text)
  | cons s rest => simp [List.headD]

/-- C4 (counterexample): on a text firing twelve emotion-vocabulary signals
the returned `neutral` value is negative (equal to -1/11), refuting the
non-negativity of all six emotion values. -/
theorem c4_counterexample :
    (detect_emotions emoText).neutral < 0 ∧ 0 < emotionSignals emoText := by
  have hj : joy_words.countP (fun w => isSubOf w (pyLower emoText)) = 6 := by decide
  have ha : anger_words.countP (fun w => isSubOf w (pyLower emoText)) = 6 := by decide
  have hs : surprise_words.countP (fun w => isSubOf w (pyLower emoText)) = 0 := by decide
  constructor
  · simp only [detect_emotions, hj, ha, hs, emotionsSum]
    norm_num
  · simp only [emotionSignals, hj, ha, hs]
    norm_num

/-- C4 (amended): the emotions mapping always sums to 1 and has joy, anger,
sadness, fear and surprise non-negative; `neutral` is non-negative whenever
at most ten vocabulary signals fired (it is negative beyond that), and with
no signal the mapping is the default distribution with neutral = 1. -/
theorem c4_emotions_invariant (text : List Char) :
    emotionsSum (detect_emotions text) = 1 ∧
    0 ≤ (detect_emotions text).joy ∧
    0 ≤ (detect_emotions text).anger ∧
    0 ≤ (detect_emotions text).sadness ∧
    0 ≤ (detect_emotions text).fear ∧
    0 ≤ (detect_emotions text).surprise ∧
    (emotionSignals text ≤ 10 → 0 ≤ (detect_emotions text).neutral) ∧
    (emotionSignals text = 0 → detect_emotions text = ⟨0, 0, 0, 0, 0, 1⟩) := by
  simp only [detect_emotions, emotionSignals, emotionsSum]
  generalize (joy_words.countP fun w => isSubOf w (pyLower text)) = jc
  generalize (anger_words.countP fun w => isSubOf w (pyLower text)) = ac
  generalize (surprise_words.countP fun w => isSubOf w (pyLower text)) = sc
  have hjc : (0:ℚ) ≤ (jc:ℚ) := Nat.cast_nonneg jc
  have hac : (0:ℚ) ≤ (ac:ℚ) := Nat.cast_nonneg ac
  have hsc : (0:ℚ) ≤ (sc:ℚ) := Nat.cast_nonneg sc
  have htot : (0:ℚ) <
      0.2 * (jc:ℚ) + 0.2 * (ac:ℚ) + 0 + 0 + 0.2 * (sc:ℚ) +
        (1 - 0.1 * ((jc:ℚ) + (ac:ℚ) + (sc:ℚ))) := by
    norm_num
    linarith
  rw [if_pos htot]
  refine ⟨?_, ?_, ?_, ?_, ?_, ?_, ?_, ?_⟩
  · rw [div_add_div_same, div_add_div_same, div_add_div_same, div_add_div_same,
      div_add_div_same, div_self (ne_of_gt htot)]
  · positivity
  · positivity
  · positivity
  · positivity
  · positivity
  · intro hle
    apply div_nonneg _ (le_of_lt htot)
    have : ((jc:ℚ) + (ac:ℚ) + (sc:ℚ)) ≤ 10 := by
      exact_mod_cast hle
    linarith
  · intro h0
    obtain ⟨h1, h2, h3⟩ : jc = 0 ∧ ac = 0 ∧ sc = 0 := by omega
    subst h1; subst h2; subst h3
    norm_num

/-- Witness for C4: on the empty text no signal fires, so both hypotheses of
the amended invariant hold and neutral is the default 1. -/
theorem c4_emotions_invariant_witness :
    emotionSignals [] ≤ 10 ∧ emotionSignals [] = 0 ∧
    0 ≤ (detect_emotions []).neutral ∧
    detect_emotions [] = ⟨0, 0, 0, 0, 0, 1⟩ :=
  ⟨by decide, by decide,
   (c4_emotions_invariant []).2.2.2.2.2.2.1 (by decide),
   (c4_emotions_invariant []).2.2.2.2.2.2.2 (by decide)⟩

/-- C10: vocabulary matching is raw substring containment on the lowercased
text, not word-boundary matching: any text containing "ai" (even inside
"said") counts a trending-topic match for the viral score, any text
containing "like" (even inside "unlikely") counts a call-to-action match for
the engagement score; concretely, "he said hello" gets the +5 trending bonus
(viral 65 from hook 50 and engagement 50 instead of 60) and "that is
unlikely" gets the +5 call-to-action bonus (engagement 55). -/
theorem c10_substring_matching (t : List Char)
    (hai : isSubOf "ai".toList (pyLower t) = true)
    (hlike : isSubOf "like".toList (pyLower t) = true) :
    1 ≤ trending_topics.countP (fun w => isSubOf w (pyLower t)) ∧
    1 ≤ cta_words.countP (fun w => isSubOf w (pyLower t)) ∧
    calculate_viral_score "he said hello".toList 50 50 = 65 ∧
    calculate_engagement_score "that is unlikely".toList = 55 := by
  have htr : calculate_viral_score "he said hello".toList 50 50 = 65 := by
    have h1 : trending_topics.countP
        (fun w => isSubOf w (pyLower "he said hello".toList)) = 1 := by decide
    simp only [calculate_viral_score, h1]
    norm_num [min_def, max_def]
  have hen : calculate_engagement_score "that is unlikely".toList = 55 := by
    have h1 : emotional_words.countP
        (fun w => isSubOf w (pyLower "that is unlikely".toList)) = 0 := by decide
    have h2 : cta_words.countP
        (fun w => isSubOf w (pyLower "that is unlikely".toList)) = 1 := by decide
    have h3 : controversial_words.countP
        (fun w => isSubOf w (pyLower "that is unlikely".toList)) = 0 := by decide
    simp only [calculate_engagement_score, h1, h2, h3]
    norm_num [min_def, max_def]
  refine ⟨?_, ?_, htr, hen⟩
  · exact List.countP_pos_iff.mpr ⟨"ai".toList, by decide, hai⟩
  · exact List.countP_pos_iff.mpr ⟨"like".toList, by decide, hlike⟩

/-- Witness for C10: "i said it is unlikely" contains "ai" inside "said" and
"like" inside "unlikely", so both matches fire without any standalone word. -/
theorem c10_substring_matching_witness :
    isSubOf "ai".toList (pyLower "i said it is unlikely".toList) = true ∧
    isSubOf "like".toList (pyLower "i said it is unlikely".toList) = true ∧
    (1 ≤ trending_topics.countP
        (fun w => isSubOf w (pyLower "i said it is unlikely".toList)) ∧
     1 ≤ cta_words.countP
        (fun w => isSubOf w (pyLower "i said it is unlikely".toList)) ∧
     calculate_viral_score "he said hello".toList 50 50 = 65 ∧
     calculate_engagement_score "that is unlikely".toList = 55) :=
  ⟨by decide, by decide,
   c10_substring_matching "i said it is unlikely".toList (by decide) (by decide)⟩

/-- Score within its documented closed interval. -/
def scoreInRange (q : ℚ) : Prop := 0 ≤ q ∧ q ≤ 100

/-- Ranking relation claimed for the returned highlights: viral scores are
non-increasing and ties keep generation order (earlier window start first). -/
def rankRel (a b : Highlight) : Prop :=
  b.viral_score ≤ a.viral_score ∧
    (a.viral_score = b.viral_score → a.start < b.start)

/-- Membership in a stable descending insertion. -/
lemma mem_insertDesc {α : Type} (gt : α → α → Bool) (x z : α) (l : List α) :
    z ∈ insertDesc gt x l ↔ z = x ∨ z ∈ l := by
  induction l with
  | nil => simp [insertDesc]
  | cons y ys ih =>
      unfold insertDesc
      split
      · simp only [List.mem_cons, ih]
        tauto
      · simp only [List.mem_cons]

/-- Membership in the stable descending sort. -/
lemma mem_sortDesc {α : Type} (gt : α → α → Bool) (z : α) (l : List α) :
    z ∈ sortDesc gt l ↔ z ∈ l := by
  induction l with
  | nil => simp [sortDesc]
  | cons x xs ih => simp [sortDesc, mem_insertDesc, ih]

/-- Inserting an element that starts before every equal-scored element of a
ranked list keeps the list ranked. -/
lemma pairwise_insertDesc (x : Highlight) (l : List Highlight)
    (hx : ∀ y ∈ l, x.viral_score = y.viral_score → x.start < y.start)
    (hl : l.Pairwise rankRel) : (insertDesc gtViral x l).Pairwise rankRel := by
  induction l with
  | nil => simp [insertDesc]
  | cons y ys ih =>
      rw [List.pairwise_cons] at hl
      obtain ⟨hy, hys⟩ := hl
      unfold insertDesc
      split
      · rename_i hgt
        have hlt : x.viral_score < y.viral_score := by
          simpa [gtViral] using hgt
        rw [List.pairwise_cons]
        refine ⟨?_, ih (fun y2 hy2 => hx y2 (List.mem_cons_of_mem _ hy2)) hys⟩
        intro z hz
        rw [mem_insertDesc] at hz
        rcases hz with rfl | hz
        · exact ⟨le_of_lt hlt, fun he => absurd he.symm (ne_of_lt hlt)⟩
        · exact hy z hz
      · rename_i hgt
        have hle : y.viral_score ≤ x.viral_score := by
          simpa [gtViral] using hgt
        rw [List.pairwise_cons]
        refine ⟨?_, List.pairwise_cons.mpr ⟨hy, hys⟩⟩
        intro z hz
        rcases List.mem_cons.mp hz with rfl | hz
        · exact ⟨hle, hx z (List.mem_cons_self _ _)⟩
        · exact ⟨le_trans (hy z hz).1 hle,
            hx z (List.mem_cons_of_mem _ hz)⟩

/-- Stable descending sort of a list whose generation order breaks every
possible viral-score tie yields a ranked list. -/
lemma pairwise_sortDesc (l : List Highlight)
    (h : l.Pairwise (fun a b =>
      a.viral_score = b.viral_score → a.start < b.start)) :
    (sortDesc gtViral l).Pairwise rankRel := by
  induction l with
  | nil => simp [sortDesc]
  | cons x xs ih =>
      rw [List.pairwise_cons] at h
      exact pairwise_insertDesc x _
        (fun y hy => h.1 y ((mem_sortDesc _ _ _).1 hy)) (ih h.2)

/-- Window starts are strictly increasing. -/
lemma pairwise_lt_windowStarts (duration : ℚ) :
    (windowStarts duration).Pairwise (· < ·) := by
  unfold windowStarts pyRange
  split
  · simp
  · rw [List.pairwise_map]
    apply List.Pairwise.imp ?_ (List.pairwise_lt_range _)
    intro a b hab
    omega

/-- Candidate windows, before ranking, in generation order. -/
def candidateWindows (segments : List AnalyzedSegment) (duration : ℚ) :
    List Highlight :=
  (windowStarts duration).filterMap
    (fun start =>
      let ws := windowSegs start segments
      if ws.isEmpty then none else some (mkHighlight start ws))

/-- Ranking then truncating the candidate windows is `_detect_highlights`. -/
lemma detect_highlights_eq (segments : List AnalyzedSegment) (duration : ℚ) :
    detect_highlights segments duration =
      (sortDesc gtViral (candidateWindows segments duration)).take 10 := rfl

/-- Candidate windows have strictly increasing starts. -/
lemma pairwise_candidateWindows (segments : List AnalyzedSegment)
    (duration : ℚ) :
    (candidateWindows segments duration).Pairwise
      (fun a b : Highlight => a.start < b.start) := by
  unfold candidateWindows
  rw [List.pairwise_filterMap]
  apply List.Pairwise.imp ?_ (pairwise_lt_windowStarts duration)
  intro a b hab x hx y hy
  dsimp only at hx hy
  have hxa : x.start = a := by
    by_cases he : (windowSegs a segments).isEmpty
    · rw [if_pos he] at hx; simp at hx
    · rw [if_neg he] at hx
      rw [Option.mem_def, Option.some.injEq] at hx
      rw [← hx]
      rfl
  have hyb : y.start = b := by
    by_cases he : (windowSegs b segments).isEmpty
    · rw [if_pos he] at hy; simp at hy
    · rw [if_neg he] at hy
      rw [Option.mem_def, Option.some.injEq] at hy
      rw [← hy]
      rfl
  rw [hxa, hyb]
  exact hab

/-- Every returned highlight is the highlight of some in-range window start
whose fully-contained segment list is non-empty. -/
lemma mem_detect_highlights {segments : List AnalyzedSegment} {duration : ℚ}
    {h : Highlight} (hm : h ∈ detect_highlights segments duration) :
    ∃ start ∈ windowStarts duration, windowSegs start segments ≠ [] ∧
      h = mkHighlight start (windowSegs start segments) := by
  rw [detect_highlights_eq] at hm
  have hm2 := (List.take_sublist 10 _).subset hm
  rw [mem_sortDesc] at hm2
  unfold candidateWindows at hm2
  rw [List.mem_filterMap] at hm2
  obtain ⟨start, hs, hf⟩ := hm2
  dsimp only at hf
  by_cases he : (windowSegs start segments).isEmpty
  · rw [if_pos he] at hf
    exact absurd hf (by simp)
  · rw [if_neg he] at hf
    refine ⟨start, hs, ?_, ?_⟩
    · simpa [List.isEmpty_iff] using he
    · exact (Option.some.injEq _ _ ▸ hf).symm

/-- C6: the highlights returned by analyze are sorted non-increasing in
viral score, windows with equal viral score keep generation order (the
earlier start precedes the later start), and at most 10 highlights are
returned. -/
theorem c6_highlight_ranking (segments : List Segment) (full_text : List Char)
    (duration : ℚ) :
    (analyze_video segments full_text duration).highlights.length ≤ 10 ∧
    (analyze_video segments full_text duration).highlights.Pairwise rankRel := by
  unfold analyze_video
  split
  · simp
  · dsimp only
    rw [detect_highlights_eq]
    constructor
    · exact List.length_take_le 10 _
    · apply List.Pairwise.sublist (List.take_sublist _ _)
      apply pairwise_sortDesc
      apply (pairwise_candidateWindows _ _).imp
      intro a b hab
      exact fun _ => hab

/-- C9: every returned highlight comes from a generated window start whose
fully-contained segment list (segment start at or after the window start and
segment end at or before window start + 30) is non-empty and is exactly the
set of contributing segments; partially overlapping segments are excluded
and a window containing no segment produces no highlight at all. -/
theorem c9_window_containment (segments : List Segment) (full_text : List Char)
    (duration : ℚ) (h : Highlight)
    (hm : h ∈ (analyze_video segments full_text duration).highlights) :
    ∃ start ∈ windowStarts duration,
      windowSegs start (analyzedSegments segments full_text) ≠ [] ∧
      h = mkHighlight start (analyzedSegments segments full_text |> windowSegs start) ∧
      (∀ s ∈ windowSegs start (analyzedSegments segments full_text),
        (start : ℚ) ≤ s.start ∧ s.«end» ≤ (start : ℚ) + 30) ∧
      (∀ s ∈ analyzedSegments segments full_text,
        (start : ℚ) ≤ s.start → s.«end» ≤ (start : ℚ) + 30 →
          s ∈ windowSegs start (analyzedSegments segments full_text)) := by
  unfold analyze_video at hm
  by_cases hseg : segments.isEmpty
  · rw [if_pos hseg] at hm
    simp at hm
  · rw [if_neg hseg] at hm
    dsimp only at hm
    obtain ⟨start, hs, hne, heq⟩ := mem_detect_highlights hm
    refine ⟨start, hs, hne, heq, ?_, ?_⟩
    · intro s hsmem
      rw [windowSegs, List.mem_filter] at hsmem
      obtain ⟨-, hcond⟩ := hsmem
      rw [Bool.and_eq_true, decide_eq_true_eq, decide_eq_true_eq] at hcond
      exact hcond
    · intro s hsmem h1 h2
      rw [windowSegs, List.mem_filter]
      refine ⟨hsmem, ?_⟩
      rw [Bool.and_eq_true, decide_eq_true_eq, decide_eq_true_eq]
      exact ⟨h1, h2⟩

/-- Round-half-even of an integer is that integer. -/
lemma rhe_intCast (n : ℤ) : rhe (n : ℚ) = n := by
  unfold rhe
  rw [Int.floor_intCast]
  norm_num

/-- Evaluation rule for `round(x, 1)` when `10 x` is an integer. -/
lemma pyRound1_eval (q : ℚ) (n : ℤ) (h : q * 10 = (n : ℚ)) :
    pyRound1 q = (n : ℚ) / 10 := by
  unfold pyRound1
  rw [h, rhe_intCast]

/-- Witness segment: `{start: 0, end: 5, text: "hi"}`. -/
def wSeg : Segment := ⟨0, 5, "hi".toList⟩

/-- Witness segment after analysis. -/
def wA : AnalyzedSegment :=
  ⟨0, 5, "hi".toList, 65, 50, 66, ⟨0, 0, 0, 0, 0, 1⟩, false⟩

/-- Witness highlight built from the single witness segment. -/
def wH : Highlight :=
  ⟨0, 30, "hi".toList, "hi".toList, 66, 65, 50, [], "hi".toList⟩

/-- Hook score of the witness segment. -/
lemma ev_hook : calculate_hook_score "hi".toList 0 = 65 := by
  simp +decide only [calculate_hook_score]
  norm_num [min_def, max_def]

/-- Engagement score of the witness segment. -/
lemma ev_eng : calculate_engagement_score "hi".toList = 50 := by
  have h1 : emotional_words.countP
      (fun w => isSubOf w (pyLower "hi".toList)) = 0 := by decide
  have h2 : cta_words.countP
      (fun w => isSubOf w (pyLower "hi".toList)) = 0 := by decide
  have h3 : controversial_words.countP
      (fun w => isSubOf w (pyLower "hi".toList)) = 0 := by decide
  simp only [calculate_engagement_score, h1, h2, h3]
  norm_num [min_def, max_def]

/-- Viral score of the witness segment. -/
lemma ev_viral : calculate_viral_score "hi".toList 65 50 = 66 := by
  have h1 : trending_topics.countP
      (fun w => isSubOf w (pyLower "hi".toList)) = 0 := by decide
  simp only [calculate_viral_score, h1]
  norm_num [min_def, max_def]

/-- Emotions of the witness segment: the default distribution. -/
lemma ev_emotions : detect_emotions "hi".toList = ⟨0, 0, 0, 0, 0, 1⟩ := by
  have h1 : joy_words.countP
      (fun w => isSubOf w (pyLower "hi".toList)) = 0 := by decide
  have h2 : anger_words.countP
      (fun w => isSubOf w (pyLower "hi".toList)) = 0 := by decide
  have h3 : surprise_words.countP
      (fun w => isSubOf w (pyLower "hi".toList)) = 0 := by decide
  simp only [detect_emotions, h1, h2, h3, emotionsSum]
  norm_num

/-- Analysis of the witness segment. -/
lemma ev_analyze_segment : analyze_segment wSeg "hi".toList = wA := by
  simp only [analyze_segment, wSeg, wA]
  rw [ev_hook, ev_eng, ev_viral, ev_emotions]
  simp +decide only [detect_topic_shift]

/-- Window starts for the witness duration 30. -/
lemma ev_windowStarts_30 : windowStarts 30 = [0] := by
  have h : pyInt 30 = 30 := by
    unfold pyInt
    rw [if_pos (by norm_num)]
    norm_num [Int.floor_eq_iff]
  rw [windowStarts, h]
  decide

/-- The witness segment is fully contained in the window at start 0. -/
lemma ev_windowSegs : windowSegs 0 [wA] = [wA] := by
  unfold windowSegs
  norm_num [List.filter_cons, List.filter_nil, wA]

/-- Highlight built from the witness window. -/
lemma ev_mkHighlight : mkHighlight 0 [wA] = wH := by
  have hjoin : joinSpace ["hi".toList] = "hi".toList := by decide
  have htitle : generate_title "hi".toList = "hi".toList := by decide
  have hkw : extract_keywords "hi".toList ["hi".toList] = [] := by decide
  have hlen : ("hi".toList).length = 2 := by decide
  have hr66 : pyRound1 66 = 66 := by
    rw [pyRound1_eval 66 660 (by norm_num)]
    norm_num
  have hr65 : pyRound1 65 = 65 := by
    rw [pyRound1_eval 65 650 (by norm_num)]
    norm_num
  have hr50 : pyRound1 50 = 50 := by
    rw [pyRound1_eval 50 500 (by norm_num)]
    norm_num
  simp only [mkHighlight, wA, List.map_cons, List.map_nil, List.sum_cons,
    List.sum_nil, List.length_cons, List.length_nil, hjoin]
  norm_num [htitle, hkw, hlen, hr66, hr65, hr50, wH]
  exact ⟨by decide, by decide⟩

/-- Analyzed segment list of the witness input. -/
lemma ev_analyzed : analyzedSegments [wSeg] "hi".toList = [wA] := by
  simp only [analyzedSegments, List.map_cons, List.map_nil, ev_analyze_segment]

/-- Candidate windows of the witness input. -/
lemma ev_candidate : candidateWindows [wA] 30 = [wH] := by
  unfold candidateWindows
  rw [ev_windowStarts_30]
  simp only [List.filterMap_cons, List.filterMap_nil]
  rw [ev_windowSegs]
  simp [ev_mkHighlight]

/-- Detected highlights of the witness input. -/
lemma ev_detect : detect_highlights [wA] 30 = [wH] := by
  rw [detect_highlights_eq, ev_candidate]
  rfl

/-- Highlights of the witness call. -/
lemma ev_highlights : (analyze_video [wSeg] "hi".toList 30).highlights = [wH] := by
  unfold analyze_video
  rw [if_neg (by simp)]
  dsimp only
  rw [ev_analyzed, ev_detect]

/-- Segment analysis of the witness call. -/
lemma ev_segment_analysis :
    (analyze_video [wSeg] "hi".toList 30).segment_analysis = some [wA] := by
  unfold analyze_video
  rw [if_neg (by simp)]
  dsimp only
  rw [ev_analyzed]

/-- Witness for C9: the witness call returns exactly one highlight, and it
satisfies the containment characterization. -/
theorem c9_window_containment_witness :
    wH ∈ (analyze_video [wSeg] "hi".toList 30).highlights ∧
    (∃ start ∈ windowStarts 30,
      windowSegs start (analyzedSegments [wSeg] "hi".toList) ≠ [] ∧
      wH = mkHighlight start (analyzedSegments [wSeg] "hi".toList |> windowSegs start) ∧
      (∀ s ∈ windowSegs start (analyzedSegments [wSeg] "hi".toList),
        (start : ℚ) ≤ s.start ∧ s.«end» ≤ (start : ℚ) + 30) ∧
      (∀ s ∈ analyzedSegments [wSeg] "hi".toList,
        (start : ℚ) ≤ s.start → s.«end» ≤ (start : ℚ) + 30 →
          s ∈ windowSegs start (analyzedSegments [wSeg] "hi".toList))) :=
  ⟨by rw [ev_highlights]; exact List.mem_singleton.mpr rfl,
   c9_window_containment [wSeg] "hi".toList 30 wH
     (by rw [ev_highlights]; exact List.mem_singleton.mpr rfl)⟩

/-- Clamping `min(100, max(0, x))` lands in the closed interval. -/
lemma clamp_range (x : ℚ) : scoreInRange (min 100 (max 0 x)) :=
  ⟨le_min (by norm_num) (le_max_left 0 x), min_le_left _ _⟩

/-- Hook scores are clamped into range. -/
lemma hook_range (t : List Char) (st : ℚ) :
    scoreInRange (calculate_hook_score t st) := by
  unfold calculate_hook_score
  apply clamp_range

/-- Engagement scores are clamped into range. -/
lemma engagement_range (t : List Char) :
    scoreInRange (calculate_engagement_score t) := by
  unfold calculate_engagement_score
  apply clamp_range

/-- Viral scores are clamped into range. -/
lemma viral_range (t : List Char) (h e : ℚ) :
    scoreInRange (calculate_viral_score t h e) := by
  unfold calculate_viral_score
  apply clamp_range

/-- Every analyzed segment carries in-range scores. -/
lemma analyzedSegments_range (segments : List Segment) (full_text : List Char) :
    ∀ a ∈ analyzedSegments segments full_text,
      scoreInRange a.hook_score ∧ scoreInRange a.engagement_score ∧
        scoreInRange a.viral_score := by
  intro a ha
  rw [analyzedSegments, List.mem_map] at ha
  obtain ⟨s, -, rfl⟩ := ha
  exact ⟨hook_range _ _, engagement_range _, viral_range _ _ _⟩

/-- Mean of a non-empty list of in-range rationals is in range. -/
lemma mean_range {l : List ℚ} (hne : l ≠ [])
    (h : ∀ x ∈ l, scoreInRange x) :
    scoreInRange (l.sum / (l.length : ℚ)) := by
  have hlen : (0 : ℚ) < (l.length : ℚ) := by
    have : 0 < l.length := List.length_pos.mpr hne
    exact_mod_cast this
  constructor
  · exact div_nonneg (List.sum_nonneg fun x hx => (h x hx).1) (le_of_lt hlen)
  · rw [div_le_iff₀ hlen]
    calc l.sum ≤ l.length • (100 : ℚ) :=
          List.sum_le_card_nsmul l 100 fun x hx => (h x hx).2
    _ = 100 * (l.length : ℚ) := by rw [nsmul_eq_mul]; ring

/-- Lower bound for round-half-even. -/
lemma le_rhe {a : ℤ} {q : ℚ} (h : (a : ℚ) ≤ q) : a ≤ rhe q := by
  unfold rhe
  have hfl : a ≤ ⌊q⌋ := Int.le_floor.mpr h
  dsimp only
  split
  · exact hfl
  · split
    · omega
    · split <;> omega

/-- Upper bound for round-half-even. -/
lemma rhe_le {b : ℤ} {q : ℚ} (h : q ≤ (b : ℚ)) : rhe q ≤ b := by
  unfold rhe
  have hfl : ⌊q⌋ ≤ b := by
    have h2 := Int.floor_le_floor h
    simpa using h2
  dsimp only
  split
  · exact hfl
  · rename_i h1
    have hge : (1 : ℚ) / 2 ≤ q - ⌊q⌋ := le_of_not_lt h1
    have hfloor : (⌊q⌋ : ℚ) ≤ q := Int.floor_le q
    have hcast : (⌊q⌋ : ℚ) < (b : ℚ) := by linarith
    have hlt : ⌊q⌋ < b := by exact_mod_cast hcast
    split
    · omega
    · split <;> omega

/-- Rounding to one decimal keeps a score in range. -/
lemma pyRound1_range {q : ℚ} (h : scoreInRange q) : scoreInRange (pyRound1 q) := by
  obtain ⟨h0, h100⟩ := h
  unfold pyRound1
  have ha : (0 : ℤ) ≤ rhe (q * 10) := le_rhe (by push_cast; linarith)
  have hb : rhe (q * 10) ≤ 1000 := rhe_le (by push_cast; linarith)
  constructor
  · exact div_nonneg (by exact_mod_cast ha) (by norm_num)
  · rw [div_le_iff₀ (by norm_num : (0 : ℚ) < 10)]
    calc ((rhe (q * 10) : ℤ) : ℚ) ≤ ((1000 : ℤ) : ℚ) := by exact_mod_cast hb
    _ = 100 * 10 := by norm_num

/-- Scores of a highlight window built from in-range segments are in range. -/
lemma mkHighlight_range (start : ℕ) (ws : List AnalyzedSegment) (hne : ws ≠ [])
    (h : ∀ s ∈ ws, scoreInRange s.hook_score ∧ scoreInRange s.engagement_score ∧
      scoreInRange s.viral_score) :
    scoreInRange (mkHighlight start ws).hook_score ∧
    scoreInRange (mkHighlight start ws).engagement_score ∧
    scoreInRange (mkHighlight start ws).viral_score := by
  have hmap : ∀ (f : AnalyzedSegment → ℚ),
      (∀ s ∈ ws, scoreInRange (f s)) →
      scoreInRange ((ws.map f).sum / ((ws.length : ℕ) : ℚ)) := by
    intro f hf
    have : ((ws.map f).length : ℚ) = (ws.length : ℚ) := by
      rw [List.length_map]
    rw [← this]
    apply mean_range (by simpa using hne)
    intro x hx
    rw [List.mem_map] at hx
    obtain ⟨s, hs, rfl⟩ := hx
    exact hf s hs
  refine ⟨?_, ?_, ?_⟩
  · exact pyRound1_range (hmap _ fun s hs => (h s hs).1)
  · exact pyRound1_range (hmap _ fun s hs => (h s hs).2.1)
  · exact pyRound1_range (hmap _ fun s hs => (h s hs).2.2)

/-- C3: every score field produced by analyze — each analyzed segment's hook,
engagement and viral score and each highlight window's averaged scores —
lies in the closed interval [0, 100]; in this rational model no NaN or
overflow value exists and negativity is excluded by the clamps. -/
theorem c3_scores_in_range (segments : List Segment) (full_text : List Char)
    (duration : ℚ) :
    (∀ l, (analyze_video segments full_text duration).segment_analysis = some l →
      ∀ a ∈ l, scoreInRange a.hook_score ∧ scoreInRange a.engagement_score ∧
        scoreInRange a.viral_score) ∧
    (∀ h ∈ (analyze_video segments full_text duration).highlights,
      scoreInRange h.hook_score ∧ scoreInRange h.engagement_score ∧
        scoreInRange h.viral_score) := by
  constructor
  · intro l hl a ha
    unfold analyze_video at hl
    by_cases hseg : segments.isEmpty
    · rw [if_pos hseg] at hl
      exact absurd hl (by simp)
    · rw [if_neg hseg] at hl
      dsimp only at hl
      rw [Option.some.injEq] at hl
      subst hl
      exact analyzedSegments_range segments full_text a ha
  · intro h hm
    unfold analyze_video at hm
    by_cases hseg : segments.isEmpty
    · rw [if_pos hseg] at hm
      simp at hm
    · rw [if_neg hseg] at hm
      dsimp only at hm
      obtain ⟨start, -, hne, rfl⟩ := mem_detect_highlights hm
      refine mkHighlight_range start _ hne fun s hs => ?_
      refine analyzedSegments_range segments full_text s ?_
      rw [windowSegs] at hs
      exact List.mem_of_mem_filter hs

/-- Witness for C3: the witness call has one analyzed segment and one
highlight, whose scores are all in range. -/
theorem c3_scores_in_range_witness :
    (analyze_video [wSeg] "hi".toList 30).segment_analysis = some [wA] ∧
    wA ∈ [wA] ∧
    wH ∈ (analyze_video [wSeg] "hi".toList 30).highlights ∧
    (scoreInRange wA.hook_score ∧ scoreInRange wA.engagement_score ∧
      scoreInRange wA.viral_score) ∧
    (scoreInRange wH.hook_score ∧ scoreInRange wH.engagement_score ∧
      scoreInRange wH.viral_score) :=
  ⟨ev_segment_analysis, List.mem_singleton.mpr rfl,
   by rw [ev_highlights]; exact List.mem_singleton.mpr rfl,
   (c3_scores_in_range [wSeg] "hi".toList 30).1 [wA] ev_segment_analysis wA
     (List.mem_singleton.mpr rfl),
   (c3_scores_in_range [wSeg] "hi".toList 30).2 wH
     (by rw [ev_highlights]; exact List.mem_singleton.mpr rfl)⟩

/-- Sum of the emotion values returned by `_detect_emotions` is always 1:
the pre-normalization total is `1 + 0.1 k > 0`, so normalization always
divides by the total. -/
lemma detect_emotions_sum (text : List Char) :
    emotionsSum (detect_emotions text) = 1 := by
  simp only [detect_emotions, emotionsSum]
  generalize (joy_words.countP fun w => isSubOf w (pyLower text)) = jc
  generalize (anger_words.countP fun w => isSubOf w (pyLower text)) = ac
  generalize (surprise_words.countP fun w => isSubOf w (pyLower text)) = sc
  have hjc : (0 : ℚ) ≤ (jc : ℚ) := Nat.cast_nonneg jc
  have hac : (0 : ℚ) ≤ (ac : ℚ) := Nat.cast_nonneg ac
  have hsc : (0 : ℚ) ≤ (sc : ℚ) := Nat.cast_nonneg sc
  have htot : (0 : ℚ) <
      0.2 * (jc : ℚ) + 0.2 * (ac : ℚ) + 0 + 0 + 0.2 * (sc : ℚ) +
        (1 - 0.1 * ((jc : ℚ) + (ac : ℚ) + (sc : ℚ))) := by
    norm_num
    linarith
  rw [if_pos htot]
  rw [div_add_div_same, div_add_div_same, div_add_div_same, div_add_div_same,
    div_add_div_same, div_self (ne_of_gt htot)]

/-- Folding emotion aggregation sums the per-segment emotion totals. -/
lemma foldl_addEmotions_sum (l : List AnalyzedSegment) (init : Emotions) :
    emotionsSum (l.foldl (fun acc s => addEmotions acc s.emotions) init) =
      emotionsSum init + (l.map (fun s => emotionsSum s.emotions)).sum := by
  induction l generalizing init with
  | nil => simp
  | cons x xs ih =>
      simp only [List.foldl_cons, List.map_cons, List.sum_cons, ih]
      have h : emotionsSum (addEmotions init x.emotions) =
          emotionsSum init + emotionsSum x.emotions := by
        simp only [addEmotions, emotionsSum]
        ring
      rw [h]
      ring

/-- Every analyzed segment's emotion mapping sums to 1. -/
lemma analyzedSegments_emotions_sum (segments : List Segment)
    (full_text : List Char) :
    ∀ a ∈ analyzedSegments segments full_text, emotionsSum a.emotions = 1 := by
  intro a ha
  rw [analyzedSegments, List.mem_map] at ha
  obtain ⟨s, -, rfl⟩ := ha
  simpa [analyze_segment] using detect_emotions_sum s.text

/-- Round-half-even moves a rational by at most one half. -/
lemma abs_rhe_sub (q : ℚ) : |(rhe q : ℚ) - q| ≤ 1 / 2 := by
  unfold rhe
  dsimp only
  have h1 : (⌊q⌋ : ℚ) ≤ q := Int.floor_le q
  have h2 : q < ⌊q⌋ + 1 := Int.lt_floor_add_one q
  split
  · rename_i hlt
    rw [abs_le]
    constructor <;> linarith
  · rename_i hge
    rw [not_lt] at hge
    split
    · rename_i hgt
      rw [abs_le]
      constructor <;> push_cast <;> linarith
    · rename_i hle
      rw [not_lt] at hle
      split <;> (rw [abs_le]; constructor <;> push_cast <;> linarith)

/-- Rounding to three decimals moves a rational by at most 1/2000. -/
lemma abs_pyRound3_sub (q : ℚ) : |pyRound3 q - q| ≤ 1 / 2000 := by
  unfold pyRound3
  have h := abs_rhe_sub (q * 1000)
  rw [show ((rhe (q * 1000) : ℚ) / 1000 - q) =
      ((rhe (q * 1000) : ℚ) - q * 1000) / 1000 by ring]
  rw [abs_div, abs_of_pos (by norm_num : (0 : ℚ) < 1000)]
  rw [div_le_iff₀ (by norm_num : (0 : ℚ) < 1000)]
  linarith

/-- C5 (amended): for every non-empty segment list the six values of the
returned `sentiment.distribution` sum to 1 within an absolute tolerance of
3/1000 — six roundings to three decimals, each off by at most 1/2000; the
1e-6 tolerance claimed originally does not hold. -/
theorem c5_distribution_sum (segments : List Segment) (full_text : List Char)
    (duration : ℚ) (hne : segments ≠ []) :
    ∀ st, (analyze_video segments full_text duration).sentiment = some st →
      ∀ d, st.distribution = some d → |emotionsSum d - 1| ≤ 3 / 1000 := by
  intro st hst d hd
  unfold analyze_video at hst
  rw [if_neg (by simpa using hne)] at hst
  dsimp only at hst
  rw [Option.some.injEq] at hst
  subst hst
  unfold analyze_sentiment at hd
  rw [if_neg (by simp [analyzedSegments, hne])] at hd
  dsimp only at hd
  rw [Option.some.injEq] at hd
  have htotal :
      emotionsSum ((analyzedSegments segments full_text).foldl
        (fun acc s => addEmotions acc s.emotions) ⟨0, 0, 0, 0, 0, 0⟩) =
        ((analyzedSegments segments full_text).length : ℚ) := by
    rw [foldl_addEmotions_sum]
    rw [List.map_congr_left (analyzedSegments_emotions_sum segments full_text)]
    simp [emotionsSum]
  set agg := (analyzedSegments segments full_text).foldl
    (fun acc s => addEmotions acc s.emotions) ⟨0, 0, 0, 0, 0, 0⟩ with hagg
  have hpos : (0 : ℚ) < emotionsSum agg := by
    rw [htotal]
    have hlen : 0 < (analyzedSegments segments full_text).length := by
      rw [List.length_pos]
      simp [analyzedSegments, hne]
    exact_mod_cast hlen
  rw [if_pos hpos] at hd
  subst hd
  have hsum : agg.joy / emotionsSum agg + agg.anger / emotionsSum agg +
      agg.sadness / emotionsSum agg + agg.fear / emotionsSum agg +
      agg.surprise / emotionsSum agg + agg.neutral / emotionsSum agg = 1 := by
    rw [div_add_div_same, div_add_div_same, div_add_div_same, div_add_div_same,
      div_add_div_same]
    rw [show agg.joy + agg.anger + agg.sadness + agg.fear + agg.surprise +
        agg.neutral = emotionsSum agg from rfl]
    exact div_self (ne_of_gt hpos)
  generalize hx1 : agg.joy / emotionsSum agg = x1 at hsum ⊢
  generalize hx2 : agg.anger / emotionsSum agg = x2 at hsum ⊢
  generalize hx3 : agg.sadness / emotionsSum agg = x3 at hsum ⊢
  generalize hx4 : agg.fear / emotionsSum agg = x4 at hsum ⊢
  generalize hx5 : agg.surprise / emotionsSum agg = x5 at hsum ⊢
  generalize hx6 : agg.neutral / emotionsSum agg = x6 at hsum ⊢
  have b1 := abs_le.mp (abs_pyRound3_sub x1)
  have b2 := abs_le.mp (abs_pyRound3_sub x2)
  have b3 := abs_le.mp (abs_pyRound3_sub x3)
  have b4 := abs_le.mp (abs_pyRound3_sub x4)
  have b5 := abs_le.mp (abs_pyRound3_sub x5)
  have b6 := abs_le.mp (abs_pyRound3_sub x6)
  rw [abs_le]
  simp only [emotionsSum]
  constructor <;>
    linarith [b1.1, b1.2, b2.1, b2.2, b3.1, b3.2, b4.1, b4.2, b5.1, b5.2,
      b6.1, b6.2]

/-- Evaluation rule for `round(x, 3)` when `1000 x` is an integer. -/
lemma pyRound3_eval (q : ℚ) (n : ℤ) (h : q * 1000 = (n : ℚ)) :
    pyRound3 q = (n : ℚ) / 1000 := by
  unfold pyRound3
  rw [h, rhe_intCast]

/-- Sentiment of the witness call: all defaults, overall neutral. -/
lemma ev_sentiment : analyze_sentiment [wA] =
    ⟨"neutral".toList, none, some ⟨0, 0, 0, 0, 0, 1⟩, some 0, some 0⟩ := by
  have hagg : List.foldl (fun acc s => addEmotions acc s.emotions)
      (⟨0, 0, 0, 0, 0, 0⟩ : Emotions) [wA] = (⟨0, 0, 0, 0, 0, 1⟩ : Emotions) := by
    norm_num [List.foldl_cons, List.foldl_nil, wA, addEmotions]
  have hr0 : pyRound3 0 = 0 := by
    rw [pyRound3_eval 0 0 (by norm_num)]
    norm_num
  have hr1 : pyRound3 1 = 1 := by
    rw [pyRound3_eval 1 1000 (by norm_num)]
    norm_num
  unfold analyze_sentiment
  rw [if_neg (by simp)]
  dsimp only
  rw [hagg]
  rw [show emotionsSum ⟨0, 0, 0, 0, 0, 1⟩ = 1 from by norm_num [emotionsSum]]
  rw [if_pos (by norm_num : (0 : ℚ) < 1)]
  simp only [dominantEmotion, List.foldl_cons, List.foldl_nil]
  norm_num [hr0, hr1]

/-- Sentiment field of the witness call. -/
lemma ev_sentiment_full : (analyze_video [wSeg] "hi".toList 30).sentiment =
    some (⟨"neutral".toList, none, some ⟨0, 0, 0, 0, 0, 1⟩, some 0, some 0⟩ :
      Sentiment) := by
  unfold analyze_video
  rw [if_neg (by simp)]
  dsimp only
  rw [ev_analyzed, ev_sentiment]

/-- Witness for C5: on the witness call the distribution is the default
neutral distribution, whose values sum to exactly 1. -/
theorem c5_distribution_sum_witness :
    ([wSeg] : List Segment) ≠ [] ∧
    (analyze_video [wSeg] "hi".toList 30).sentiment =
      some (⟨"neutral".toList, none, some ⟨0, 0, 0, 0, 0, 1⟩, some 0, some 0⟩ :
        Sentiment) ∧
    |emotionsSum ⟨0, 0, 0, 0, 0, 1⟩ - 1| ≤ 3 / 1000 :=
  ⟨by simp, ev_sentiment_full,
   c5_distribution_sum [wSeg] "hi".toList 30 (by simp) _ ev_sentiment_full _ rfl⟩

/-- First counterexample segment for the distribution-sum tolerance. -/
def cSeg1 : Segment := ⟨0, 1, "happy".toList⟩

/-- Second counterexample segment. -/
def cSeg2 : Segment := ⟨1, 2, "hate".toList⟩

/-- Third counterexample segment. -/
def cSeg3 : Segment := ⟨2, 3, "wow".toList⟩

/-- Analysis of the first counterexample segment. -/
def cA1 : AnalyzedSegment :=
  ⟨0, 1, "happy".toList, 65, 53, 336/5, ⟨2/11, 0, 0, 0, 0, 9/11⟩, false⟩

/-- Analysis of the second counterexample segment. -/
def cA2 : AnalyzedSegment :=
  ⟨1, 2, "hate".toList, 65, 53, 336/5, ⟨0, 2/11, 0, 0, 0, 9/11⟩, false⟩

/-- Analysis of the third counterexample segment. -/
def cA3 : AnalyzedSegment :=
  ⟨2, 3, "wow".toList, 65, 50, 66, ⟨0, 0, 0, 0, 2/11, 9/11⟩, false⟩

/-- Rounded distribution of the counterexample call:
its values sum to 1.001, not 1. -/
def cDist : Emotions := ⟨61/1000, 61/1000, 0, 0, 61/1000, 818/1000⟩

/-- Sentiment of the counterexample call. -/
def cSt : Sentiment :=
  ⟨"neutral".toList, none, some cDist, some (183/2000), some (61/1000)⟩

/-- Analysis of "happy": one joy signal. -/
lemma ev_cA1 : analyze_segment cSeg1 [] = cA1 := by
  have hhook : calculate_hook_score "happy".toList 0 = 65 := by
    simp +decide only [calculate_hook_score]
    norm_num [min_def, max_def]
  have heng : calculate_engagement_score "happy".toList = 53 := by
    have h1 : emotional_words.countP
        (fun w => isSubOf w (pyLower "happy".toList)) = 1 := by decide
    have h2 : cta_words.countP
        (fun w => isSubOf w (pyLower "happy".toList)) = 0 := by decide
    have h3 : controversial_words.countP
        (fun w => isSubOf w (pyLower "happy".toList)) = 0 := by decide
    simp only [calculate_engagement_score, h1, h2, h3]
    norm_num [min_def, max_def]
  have hviral : calculate_viral_score "happy".toList 65 53 = 336/5 := by
    have h1 : trending_topics.countP
        (fun w => isSubOf w (pyLower "happy".toList)) = 0 := by decide
    simp only [calculate_viral_score, h1]
    norm_num [min_def, max_def]
  have hemo : detect_emotions "happy".toList = ⟨2/11, 0, 0, 0, 0, 9/11⟩ := by
    have h1 : joy_words.countP
        (fun w => isSubOf w (pyLower "happy".toList)) = 1 := by decide
    have h2 : anger_words.countP
        (fun w => isSubOf w (pyLower "happy".toList)) = 0 := by decide
    have h3 : surprise_words.countP
        (fun w => isSubOf w (pyLower "happy".toList)) = 0 := by decide
    simp only [detect_emotions, h1, h2, h3, emotionsSum]
    norm_num
  have htsh : detect_topic_shift "happy".toList = false := by decide
  simp only [analyze_segment, cSeg1, cA1]
  rw [hhook, heng, hviral, hemo, htsh]

/-- Analysis of "hate": one anger signal. -/
lemma ev_cA2 : analyze_segment cSeg2 [] = cA2 := by
  have hhook : calculate_hook_score "hate".toList 1 = 65 := by
    simp +decide only [calculate_hook_score]
    norm_num [min_def, max_def]
  have heng : calculate_engagement_score "hate".toList = 53 := by
    have h1 : emotional_words.countP
        (fun w => isSubOf w (pyLower "hate".toList)) = 1 := by decide
    have h2 : cta_words.countP
        (fun w => isSubOf w (pyLower "hate".toList)) = 0 := by decide
    have h3 : controversial_words.countP
        (fun w => isSubOf w (pyLower "hate".toList)) = 0 := by decide
    simp only [calculate_engagement_score, h1, h2, h3]
    norm_num [min_def, max_def]
  have hviral : calculate_viral_score "hate".toList 65 53 = 336/5 := by
    have h1 : trending_topics.countP
        (fun w => isSubOf w (pyLower "hate".toList)) = 0 := by decide
    simp only [calculate_viral_score, h1]
    norm_num [min_def, max_def]
  have hemo : detect_emotions "hate".toList = ⟨0, 2/11, 0, 0, 0, 9/11⟩ := by
    have h1 : joy_words.countP
        (fun w => isSubOf w (pyLower "hate".toList)) = 0 := by decide
    have h2 : anger_words.countP
        (fun w => isSubOf w (pyLower "hate".toList)) = 1 := by decide
    have h3 : surprise_words.countP
        (fun w => isSubOf w (pyLower "hate".toList)) = 0 := by decide
    simp only [detect_emotions, h1, h2, h3, emotionsSum]
    norm_num
  have htsh : detect_topic_shift "hate".toList = false := by decide
  simp only [analyze_segment, cSeg2, cA2]
  rw [hhook, heng, hviral, hemo, htsh]

/-- Analysis of "wow": one surprise signal. -/
lemma ev_cA3 : analyze_segment cSeg3 [] = cA3 := by
  have hhook : calculate_hook_score "wow".toList 2 = 65 := by
    simp +decide only [calculate_hook_score]
    norm_num [min_def, max_def]
  have heng : calculate_engagement_score "wow".toList = 50 := by
    have h1 : emotional_words.countP
        (fun w => isSubOf w (pyLower "wow".toList)) = 0 := by decide
    have h2 : cta_words.countP
        (fun w => isSubOf w (pyLower "wow".toList)) = 0 := by decide
    have h3 : controversial_words.countP
        (fun w => isSubOf w (pyLower "wow".toList)) = 0 := by decide
    simp only [calculate_engagement_score, h1, h2, h3]
    norm_num [min_def, max_def]
  have hviral : calculate_viral_score "wow".toList 65 50 = 66 := by
    have h1 : trending_topics.countP
        (fun w => isSubOf w (pyLower "wow".toList)) = 0 := by decide
    simp only [calculate_viral_score, h1]
    norm_num [min_def, max_def]
  have hemo : detect_emotions "wow".toList = ⟨0, 0, 0, 0, 2/11, 9/11⟩ := by
    have h1 : joy_words.countP
        (fun w => isSubOf w (pyLower "wow".toList)) = 0 := by decide
    have h2 : anger_words.countP
        (fun w => isSubOf w (pyLower "wow".toList)) = 0 := by decide
    have h3 : surprise_words.countP
        (fun w => isSubOf w (pyLower "wow".toList)) = 1 := by decide
    simp only [detect_emotions, h1, h2, h3, emotionsSum]
    norm_num
  have htsh : detect_topic_shift "wow".toList = false := by decide
  simp only [analyze_segment, cSeg3, cA3]
  rw [hhook, heng, hviral, hemo, htsh]

/-- Analyzed segments of the counterexample call. -/
lemma ev_canalyzed :
    analyzedSegments [cSeg1, cSeg2, cSeg3] [] = [cA1, cA2, cA3] := by
  simp only [analyzedSegments, List.map_cons, List.map_nil, ev_cA1, ev_cA2,
    ev_cA3]

/-- Aggregated emotions of the counterexample call. -/
lemma ev_cagg : List.foldl (fun acc s => addEmotions acc s.emotions)
    (⟨0, 0, 0, 0, 0, 0⟩ : Emotions) [cA1, cA2, cA3] =
      (⟨2/11, 2/11, 0, 0, 2/11, 27/11⟩ : Emotions) := by
  norm_num [List.foldl_cons, List.foldl_nil, cA1, cA2, cA3, addEmotions]

/-- Rounding 2/33 to three decimals gives 0.061 (rounding up by ~0.0004). -/
lemma ev_round233 : pyRound3 (2/33) = 61/1000 := by
  have hf : ⌊(2 : ℚ)/33 * 1000⌋ = 60 := by
    rw [Int.floor_eq_iff]
    norm_num
  simp only [pyRound3, rhe, hf]
  norm_num

/-- Rounding 9/11 to three decimals gives 0.818 (rounding down). -/
lemma ev_round911 : pyRound3 (9/11) = 818/1000 := by
  have hf : ⌊(9 : ℚ)/11 * 1000⌋ = 818 := by
    rw [Int.floor_eq_iff]
    norm_num
  simp only [pyRound3, rhe, hf]
  norm_num

/-- Sentiment of the counterexample call. -/
lemma ev_csentiment : analyze_sentiment [cA1, cA2, cA3] = cSt := by
  have h233 : pyRound3 ((2 : ℚ)/11/3) = 61/1000 := by
    rw [show ((2 : ℚ)/11/3) = 2/33 by norm_num]
    exact ev_round233
  have h03 : pyRound3 ((0 : ℚ)/3) = 0 := by
    rw [show ((0 : ℚ)/3) = 0 by norm_num, pyRound3_eval 0 0 (by norm_num)]
    norm_num
  have h911 : pyRound3 ((27 : ℚ)/11/3) = 818/1000 := by
    rw [show ((27 : ℚ)/11/3) = 9/11 by norm_num]
    exact ev_round911
  unfold analyze_sentiment
  rw [if_neg (by simp)]
  dsimp only
  rw [ev_cagg]
  rw [show emotionsSum ⟨2/11, 2/11, 0, 0, 2/11, 27/11⟩ = 3 from by
    norm_num [emotionsSum]]
  rw [if_pos (by norm_num : (0 : ℚ) < 3)]
  dsimp only
  rw [h233, h03, h911]
  simp only [dominantEmotion, List.foldl_cons, List.foldl_nil]
  norm_num [cSt, cDist]

/-- Sentiment field of the counterexample call. -/
lemma ev_csentiment_full :
    (analyze_video [cSeg1, cSeg2, cSeg3] [] 0).sentiment = some cSt := by
  unfold analyze_video
  rw [if_neg (by simp)]
  dsimp only
  rw [ev_canalyzed, ev_csentiment]

/-- C5 (counterexample): on three one-word segments (one joy, one anger and
one surprise signal) the rounded distribution values are 0.061, 0.061, 0,
0, 0.061 and 0.818, summing to 1.001 — off from 1 by 1/1000, far beyond the
claimed 1e-6 tolerance — while the aggregate emotion signal is nonzero. -/
theorem c5_counterexample :
    (analyze_video [cSeg1, cSeg2, cSeg3] [] 0).sentiment = some cSt ∧
    cSt.distribution = some cDist ∧
    emotionsSum cDist = 1001/1000 ∧
    ¬(|emotionsSum cDist - 1| ≤ 1/1000000) ∧
    (List.foldl (fun acc s => addEmotions acc s.emotions)
      (⟨0, 0, 0, 0, 0, 0⟩ : Emotions)
      (analyzedSegments [cSeg1, cSeg2, cSeg3] [])).joy ≠ 0 := by
  have hsum : emotionsSum cDist = 1001/1000 := by norm_num [emotionsSum, cDist]
  refine ⟨ev_csentiment_full, rfl, hsum, ?_, ?_⟩
  · rw [hsum]
    rw [show (1001 : ℚ)/1000 - 1 = 1/1000 by norm_num]
    rw [abs_of_pos (by norm_num : (0 : ℚ) < 1/1000)]
    norm_num
  · rw [ev_canalyzed, ev_cagg]
    norm_num
